import Mathlib

/-!
Verification of the g2p mapping/rule-table engine
(`g2p/mappings/__init__.py` and `g2p/mappings/utils.py`).

Rules are Python dicts with keys `in`, `out`, `context_before`,
`context_after`, plus the compiled-state keys `intermediate_form` and
`match_pattern` added during processing.  We embed a rule as a structure
whose two compiled-state fields are `Option`s: `none` models "key absent".
`match_pattern = some none` models the Python value `False` (the sentinel
`rule_to_regex` returns for a null input), and `some (some p)` models a
compiled pattern, represented by its pattern text together with its
ignore-case flag.  Python dict equality (used by `list.index` and
`list.remove`) compares key sets and values, which this structure equality
mirrors; compiled regex objects are only ever compared against the `False`
sentinel in the source, so representing patterns by their text does not
change any comparison the source actually performs.
-/

/-- One correspondence entry (a rule dict).  Field `inp` embeds the
Python key `in` (a Lean keyword). -/
structure Rule where
  inp : String
  out : String
  context_before : String
  context_after : String
  intermediate_form : Option String := none
  match_pattern : Option (Option (String × Bool)) := none
deriving DecidableEq, Inhabited, Repr

/-- Python `list.index`: index of the first element equal to `x`.
(The source only calls it when `x` is present; for an absent element we
return the list length, a case never reached in the embedded code.) -/
def pyListIndex [DecidableEq α] : List α → α → Nat
  | [], _ => 0
  | a :: as, x => if a = x then 0 else pyListIndex as x + 1

/-- `Mapping._string_to_pua` (`__init__.py` lines 114-128): given a string
of length n and an offset m, produce a string of n repetitions of
`chr(983040 + m)` (Supplementary Private Use Area A). -/
def string_to_pua (s : String) (offset : Nat) : String :=
  String.mk (List.replicate s.length (Char.ofNat (983040 + offset)))

/-!
### The `prevent_feeding` stage of `Mapping.process_kwargs`

```python
for io in mapping:
    io['intermediate_form'] = self._string_to_pua(io['out'], mapping.index(io))
```

The Python `for` loop walks the list by position while mutating elements
in place; no elements are added or removed, so position `i` of the loop
is the length of the already-processed prefix.  We embed the loop state
as (processed prefix `acc`, unprocessed suffix `rest`); the current list
seen by `mapping.index` is `acc ++ rest`.
-/

def preventFeedingGo (acc : List Rule) : List Rule → List Rule
  | [] => acc
  | io :: rest =>
    let idx := pyListIndex (acc ++ io :: rest) io
    preventFeedingGo (acc ++ [{ io with intermediate_form := some (string_to_pua io.out idx) }]) rest

/-- The `prevent_feeding=true` branch of `Mapping.process_kwargs`
(`__init__.py` lines 187-189). -/
def preventFeeding (mapping : List Rule) : List Rule :=
  preventFeedingGo [] mapping

/-- The assignment the spec describes: the rule at position `base + k`
receives `chr(983040 + (base + k))` repeated `len(out)` times. -/
def puaAssign (base : Nat) : List Rule → List Rule
  | [] => []
  | r :: rs => { r with intermediate_form := some (string_to_pua r.out base) } :: puaAssign (base + 1) rs

/-!
### `utils.py`: the fixed-width lookbehind rewriter

`create_fixed_width_lookbehind` substitutes every maximal run matching
`[\p{L}\p{M}|]+` (the lookaround anchors `(?<=\(?)` and `(?=\)?)` in the
source regex match the empty string unconditionally, so they constrain
nothing) with `pattern_to_fixed_width_lookbehinds` applied to the run.
-/

/-- Stable descending insertion of `x` into a list already sorted by
descending string length: `x` goes after every element of length `≥` its
own, which is exactly where Python's stable `sorted(key=len, reverse=True)`
places a later element. -/
def insertDescLen (x : String) : List String → List String
  | [] => [x]
  | y :: ys => if x.length ≤ y.length then y :: insertDescLen x ys else x :: y :: ys

/-- Python `sorted(pattern.split('|'), key=len, reverse=True)`: the stable
sort by descending length (the stable result is unique, so any stable
implementation embeds it faithfully). -/
def sortByLenDesc (l : List String) : List String :=
  l.foldl (fun acc x => insertDescLen x acc) []

/-- Python `pattern.split('|')` for the one-character separator: maximal
(possibly empty) segments between separator occurrences, in order.
(`String.splitOn` agrees but is not kernel-reducible, so the split is
embedded structurally.) -/
def pySplitPipeAux : List Char → List Char → List String
  | [], cur => [String.mk cur]
  | c :: rest, cur =>
    if c = '|' then String.mk cur :: pySplitPipeAux rest []
    else pySplitPipeAux rest (cur ++ [c])

def pySplitPipe (s : String) : List String :=
  pySplitPipeAux s.data []

/-- Rendering of the bucket list shared by the source's last two lines:
each bucket becomes a lookbehind over its members joined by the
separator, the bucket assertions are joined by the separator, and the
whole is wrapped in one outer group. -/
def renderBuckets (buckets : List (List String)) : String :=
  "(" ++ String.intercalate "|" (buckets.map (fun items => "(?<=" ++ String.intercalate "|" items ++ ")")) ++ ")"

/-- The grouping loop of `pattern_to_fixed_width_lookbehinds`
(`utils.py` lines 71-82), embedded with its loop state
(`current_len`, `all_lookbehinds`, `current_list`) made explicit.
`p` is the full sorted list, which the source's final-iteration test
`pattern.index(item) == len(pattern) - 1` consults via first-occurrence
index — faithfully kept here via `pyListIndex`. -/
def lbGo (p : List String) : List String → Nat → List (List String) → List String → List (List String)
  | [], _, all, _ => all
  | item :: rest, curLen, all, cur =>
    let step : Nat × List (List String) × List String :=
      if item.length = curLen then (curLen, all, cur ++ [item])
      else (item.length, all ++ [cur], [item])
    let all2 := if pyListIndex p item = p.length - 1 then step.2.1 ++ [step.2.2] else step.2.1
    lbGo p rest step.1 all2 step.2.2

/-- `pattern_to_fixed_width_lookbehinds` (`utils.py` lines 66-84): split a
run on the separator, stably sort the alternatives by descending length,
group them with the loop above, and render.  (`pattern[0]` on the sorted
list is embedded with `headD ""`; the split of the nonempty runs this is
applied to is never empty, so the default is never consulted.) -/
def pattern_to_fixed_width_lookbehinds (s : String) : String :=
  let p := sortByLenDesc (pySplitPipe s)
  renderBuckets (lbGo p p (p.headD "").length [] [])

/-- What the specification describes for the grouping: chunk the sorted
alternatives into maximal runs of consecutive equal-length entries.
`cur` is the open bucket (consisting of entries of length `curLen`). -/
def chunkByLenAux (cur : List String) (curLen : Nat) : List String → List (List String)
  | [] => [cur]
  | item :: rest =>
    if item.length = curLen then chunkByLenAux (cur ++ [item]) curLen rest
    else cur :: chunkByLenAux [item] item.length rest

/-- Spec-side grouping of a sorted alternative list into buckets of equal
length, preserving order. -/
def chunkByLen : List String → List (List String)
  | [] => []
  | h :: t => chunkByLenAux [h] h.length t

/-- Declared from the specification's wording of the lookbehind algorithm
(§4.3), for comparison with the source embedding
`pattern_to_fixed_width_lookbehinds`: sort descending, bucket consecutive
equal lengths, render each bucket as a lookbehind, join and wrap. -/
def lookbehind_spec (s : String) : String :=
  renderBuckets (chunkByLen (sortByLenDesc (pySplitPipe s)))

/-- The character class `[\p{L}\p{M}|]` of `create_fixed_width_lookbehind`.
Lean's standard library carries no Unicode letter/mark tables, so the
class is embedded for the ASCII subset (`Char.isAlpha`) plus the
separator; no claim settled here depends on non-ASCII letters or marks. -/
def isContextChar (c : Char) : Bool :=
  c.isAlpha || c = '|'

/-- Emit one maximal run: a nonempty run is replaced by the rewriter's
output, and there is nothing to emit for an empty run. -/
def emitRun (run : List Char) : List Char :=
  if run = [] then [] else (pattern_to_fixed_width_lookbehinds (String.mk run)).data

/-- One pass over the pattern accumulating the current in-class run:
out-of-class characters are copied verbatim, maximal in-class runs are
rewritten.  This is `re.sub` with leftmost-longest matches of the class. -/
def cfwlAux : List Char → List Char → List Char
  | [], run => emitRun run
  | c :: rest, run =>
    if isContextChar c then cfwlAux rest (run ++ [c])
    else emitRun run ++ c :: cfwlAux rest []

/-- `create_fixed_width_lookbehind` (`utils.py` lines 59-64). -/
def create_fixed_width_lookbehind (s : String) : String :=
  String.mk (cfwlAux s.data [])

/-!
### `Mapping.rule_to_regex` and the final compile loop of `process_kwargs`
-/

/-- Leading decimal digits of a character list, and the remainder.
(`\d` of the source pattern is embedded for the ASCII digits.) -/
def spanDigits (cs : List Char) : List Char × List Char :=
  (cs.takeWhile Char.isDigit, cs.dropWhile Char.isDigit)

/-- `re.sub(r'{\d+}', "", ...)` of `rule_to_regex`: delete every
leftmost, non-overlapping occurrence of an opening brace, one or more
digits, and a closing brace.  State `pending = some ds` means an opening
brace followed by the digits `ds` (reversed) has been read and not yet
resolved. -/
def stripBraceDigitsAux : List Char → Option (List Char) → List Char
  | [], none => []
  | [], some ds => '{' :: ds.reverse
  | c :: rest, none =>
    if c = '{' then stripBraceDigitsAux rest (some [])
    else c :: stripBraceDigitsAux rest none
  | c :: rest, some ds =>
    if c = '}' ∧ ds ≠ [] then stripBraceDigitsAux rest none
    else if c.isDigit then stripBraceDigitsAux rest (some (c :: ds))
    else if c = '{' then ('{' :: ds.reverse) ++ stripBraceDigitsAux rest (some [])
    else ('{' :: ds.reverse) ++ c :: stripBraceDigitsAux rest none

def stripBraceDigits (s : String) : String :=
  String.mk (stripBraceDigitsAux s.data none)

/-- `Mapping.rule_to_regex` (`__init__.py` lines 198-244).  Returns
`none` for the Python `False` (null input, after logging a warning);
otherwise the compiled pattern, embedded as its pattern text paired with
its ignore-case flag.  `re.compile` errors raise out of the whole
construction (spec §4.5's unnamed generic kind) and are outside this
pure embedding; no claim settled here exercises a malformed context. -/
def rule_to_regex (case_sensitive : Bool) (rule : Rule) : Option (String × Bool) :=
  if rule.inp = "" then none
  else
    let before := rule.context_before
    let after := rule.context_after
    let input_match := stripBraceDigits rule.inp
    let inp := create_fixed_width_lookbehind before ++ input_match
    let inp := if after ≠ "" then inp ++ "(?=" ++ after ++ ")" else inp
    some (inp, !case_sensitive)

/-!
### The compile-and-drop loop at the end of `Mapping.process_kwargs`

```python
for io in mapping:
    io['match_pattern'] = self.rule_to_regex(io)
    if not io['match_pattern']:
        mapping.remove(io)
```

A Python `for` over a list holds a cursor: `next()` yields `l[idx]` and
increments `idx`, regardless of the body shrinking the list.  The body
mutates `l[idx]` in place and, when the rule got the `False` sentinel,
removes the first element equal to the updated rule (`list.remove`
compares dicts by value).  The loop ends when the cursor passes the
current length.  Embedded with explicit cursor and fuel: the cursor
strictly grows and the list never grows, so `l.length` steps of fuel
always suffice and the fuel-exhausted arm is unreachable. -/
def processRegexGo (cs : Bool) : Nat → List Rule → Nat → List Rule
  | 0, l, _ => l
  | fuel + 1, l, idx =>
    if h : idx < l.length then
      let io := l.get ⟨idx, h⟩
      let mp := rule_to_regex cs io
      let io2 := { io with match_pattern := some mp }
      let l2 := l.set idx io2
      let l3 := if mp.isNone then l2.erase io2 else l2
      processRegexGo cs fuel l3 (idx + 1)
    else l

/-- The final regex-compilation loop of `Mapping.process_kwargs`
(`__init__.py` lines 190-194), with the `case_sensitive` flag of the
enclosing Mapping passed explicitly. -/
def process_kwargs_regex_loop (cs : Bool) (mapping : List Rule) : List Rule :=
  processRegexGo cs mapping.length mapping 0

/-!
### `utils.load_from_csv` (lines 125-155)

The file and `csv.reader` layers are embedded as the row list they
produce (each cell a string; `csv.reader` yields only strings, so the
source's numeric-to-string fixup loop is the identity here).  Unguarded
subscripts `entry[0]` and `entry[1]` raise `IndexError`, which
propagates; the guarded `entry[2]`/`entry[3]` default to the empty
string. -/

inductive LoadErr
  | indexError
deriving DecidableEq, Repr

/-- One row of the work sheet to a rule record. -/
def load_row (entry : List String) : Except LoadErr Rule :=
  match entry.get? 0 with
  | none => .error .indexError
  | some c0 =>
    match entry.get? 1 with
    | none => .error .indexError
    | some c1 => .ok { inp := c0, out := c1
                       context_before := (entry.get? 2).getD ""
                       context_after := (entry.get? 3).getD "" }

/-- `load_from_csv` over the parsed rows: rows are processed in order and
the first failing subscript aborts the whole load. -/
def load_from_csv : List (List String) → Except LoadErr (List Rule)
  | [] => .ok []
  | row :: rest =>
    match load_row row with
    | .error e => .error e
    | .ok r =>
      match load_from_csv rest with
      | .error e => .error e
      | .ok rs => .ok (r :: rs)

/-!
### Error taxonomy, registry lookups, construction dispatch, export
-/

/-- The domain error kinds raised by the embedded code.  The class
definitions live in `g2p/exceptions.py`, which is not among the provided
sources; the kinds and the payload of `MappingMissing` are modelled from
the spec's §4.5 taxonomy and the raise sites in `__init__.py`.
`notADirectory` stands for the generic `Exception` raised by the export
operations on a missing directory. -/
inductive GErr
  | MalformedLookup
  | MappingMissing (in_lang out_lang : String)
  | MalformedMapping
  | IncorrectFileType
  | notADirectory
deriving DecidableEq, Repr

/-- One record of the external `MAPPINGS_AVAILABLE` catalog (spec §4.7):
at least `in_lang`, `out_lang`, an optional `id`, and its loaded rule
table.  `Option` fields model possibly-absent dict keys, read with
`.get(key, '')` in the source. -/
structure RegEntry where
  in_lang : Option String := none
  out_lang : Option String := none
  id : Option String := none
  mapping_data : List Rule := []
deriving DecidableEq, Inhabited, Repr

/-- `Mapping.find_mapping` (`__init__.py` lines 277-285): linear search
for an exact pair match, first match wins; the returned entry is
deep-copied in the source, which value semantics renders as returning
the entry itself.  No match raises `MappingMissing(in_lang, out_lang)`. -/
def find_mapping (registry : List RegEntry) (in_lang out_lang : String) : Except GErr RegEntry :=
  match registry with
  | [] => .error (.MappingMissing in_lang out_lang)
  | e :: es =>
    if e.in_lang.getD "" = in_lang ∧ e.out_lang.getD "" = out_lang then .ok e
    else find_mapping es in_lang out_lang

/-- `Mapping.find_mapping_by_id` (`__init__.py` lines 287-292): linear
search for an exact id match (again deep-copied on hit); falling off the
loop returns Python `None`, embedded as `none`. -/
def find_mapping_by_id (registry : List RegEntry) (map_id : String) : Option RegEntry :=
  match registry with
  | [] => none
  | e :: es =>
    if e.id.getD "" = map_id then some e
    else find_mapping_by_id es map_id

/-- The `mapping` argument of `Mapping.__init__`: a user-supplied rule
list, a configuration-document path, or absent (`None`/default). -/
inductive MappingArg
  | ruleList (rules : List Rule)
  | configPath (p : String)
  | noArg

/-- The keyword arguments `__init__` inspects for source selection;
`none` models an absent key (`"in_lang" in self.kwargs` is `isSome`). -/
structure InitKwargs where
  in_lang : Option String := none
  out_lang : Option String := none
  id : Option String := none

/-- Which loading path `__init__` selected.  `fromConfig none` records
that `find_mapping_by_id` produced no configuration (the subsequent
`process_loaded_config(None)` then fails on attribute access, not with a
domain error kind). -/
inductive InitSource
  | fromList (rules : List Rule)
  | fromPath (p : String)
  | fromConfig (cfg : Option RegEntry)
deriving DecidableEq

/-- The source-selection dispatch of `Mapping.__init__` (`__init__.py`
lines 64-79). -/
def init_dispatch (arg : MappingArg) (kw : InitKwargs) (registry : List RegEntry) :
    Except GErr InitSource :=
  match arg with
  | .ruleList rules => .ok (.fromList rules)
  | .configPath p => .ok (.fromPath p)
  | .noArg =>
    if kw.in_lang.isSome ∧ kw.out_lang.isSome then
      match find_mapping registry (kw.in_lang.getD "") (kw.out_lang.getD "") with
      | .error e => .error e
      | .ok cfg => .ok (.fromConfig (some cfg))
    else if kw.id.isSome then .ok (.fromConfig (find_mapping_by_id registry (kw.id.getD "")))
    else .error .MalformedLookup

/-- The four-public-field projection applied by `mapping_to_file`
(`filtered = {k: v for k, v in io.items() if k in fieldnames}`):
a rule with its compiled-state keys absent. -/
def plainRule (r : Rule) : Rule :=
  { inp := r.inp, out := r.out
    context_before := r.context_before, context_after := r.context_after }

/-- A rule as the delimited-text row the `csv.DictWriter` emits, in
`fieldnames` order. -/
def mapping_rule_row (r : Rule) : List String :=
  [r.inp, r.out, r.context_before, r.context_after]

/-- What `mapping_to_file` hands to the file system: the structured
records of the `json` branch, or the rows of the `csv` branch.  The
serialization layers (`json.dump`, `csv` quoting) are embedded as the
identity on these shapes. -/
inductive ExportContent
  | jsonFile (records : List Rule)
  | csvFile (rows : List (List String))
deriving DecidableEq

/-- `Mapping.mapping_to_file` (`__init__.py` lines 294-313).  The
directory test is passed as a flag; success returns the written file's
name and content, an error writes nothing (the source raises before any
`open` on the failing branches). -/
def mapping_to_file (output_path_isdir : Bool) (in_lang out_lang : Option String)
    (file_type : String) (mapping : List Rule) : Except GErr (String × ExportContent) :=
  if output_path_isdir = false then .error .notADirectory
  else
    let fn := in_lang.getD "und" ++ "_to_" ++ out_lang.getD "und" ++ "." ++ file_type
    let filtered := mapping.map plainRule
    if file_type = "json" then .ok (fn, .jsonFile filtered)
    else if file_type = "csv" then .ok (fn, .csvFile (filtered.map mapping_rule_row))
    else .error .IncorrectFileType

/-- Python `a or b` for `a` an optional integer: `None` and `0` are both
falsy and select `b`. -/
def pyOrD (x : Option Int) (d : Int) : Int :=
  match x with
  | none => d
  | some v => if v = 0 then d else v

/-- Python slice-bound resolution for a list of length `n` and step 1:
negative indices count from the end, then both ends clamp into `[0, n]`. -/
def pyBoundIdx (n : Nat) (i : Int) : Nat :=
  if i < 0 then ((n : Int) + i).toNat else min i.toNat n

/-- The slice arm of `Mapping.__getitem__` (`__init__.py` line 107):
`self.mapping[item.start or 0 : item.stop or len(self.mapping)]`. -/
def getitem_slice (mapping : List Rule) (start stop : Option Int) : List Rule :=
  let s := pyBoundIdx mapping.length (pyOrD start 0)
  let e := pyBoundIdx mapping.length (pyOrD stop (mapping.length : Int))
  (mapping.drop s).take (e - s)

/-!
### A store model for the deep-copy frame property (spec §3, §4.7)

The claim that registry lookups deep-copy and that construction never
mutates the catalog is about heap sharing, which value semantics erases.
To state it faithfully we model the heap explicitly at the granularity
of catalog entries: a store of entry cells, the registry as a list of
cell references, `deepcopy` as allocation of a fresh cell holding the
same value, and the construction pipeline as an in-place update of the
cell the constructor works on.  The pipeline body is an arbitrary
function (`pipe`), so the frame property holds for every processing the
engine performs. -/

/-- Dereference the registry's cells (out-of-range references, which the
well-formedness hypothesis of the frame theorem rules out, fall back to
the default entry). -/
def derefAll (store : List RegEntry) (refs : List Nat) : List RegEntry :=
  refs.map (fun r => store.getD r default)

/-- `find_mapping` over the store: linear first-match search; a hit
appends a deep copy (a fresh cell with the matched entry's value) and
returns the new store with the fresh reference. -/
def find_mapping_heap (store : List RegEntry) (refs : List Nat) (in_lang out_lang : String) :
    Except GErr (List RegEntry × Nat) :=
  match refs with
  | [] => .error (.MappingMissing in_lang out_lang)
  | r :: rs =>
    let e := store.getD r default
    if e.in_lang.getD "" = in_lang ∧ e.out_lang.getD "" = out_lang then
      .ok (store ++ [e], store.length)
    else find_mapping_heap store rs in_lang out_lang

/-- `find_mapping_by_id` over the store, with the same deep-copy step on
a hit and Python `None` on a miss. -/
def find_mapping_by_id_heap (store : List RegEntry) (refs : List Nat) (map_id : String) :
    Option (List RegEntry × Nat) :=
  match refs with
  | [] => none
  | r :: rs =>
    let e := store.getD r default
    if e.id.getD "" = map_id then some (store ++ [e], store.length)
    else find_mapping_by_id_heap store rs map_id

/-- Construction by language pair: look up, then run the processing
pipeline in place on the cell the lookup returned. -/
def construct_from_pair (store : List RegEntry) (refs : List Nat) (in_lang out_lang : String)
    (pipe : RegEntry → RegEntry) : Except GErr (List RegEntry × Nat) :=
  match find_mapping_heap store refs in_lang out_lang with
  | .error e => .error e
  | .ok (s2, ref) => .ok (s2.set ref (pipe (s2.getD ref default)), ref)

/-- Construction by id: look up, then run the processing pipeline in
place on the cell the lookup returned. -/
def construct_from_id (store : List RegEntry) (refs : List Nat) (map_id : String)
    (pipe : RegEntry → RegEntry) : Option (List RegEntry × Nat) :=
  match find_mapping_by_id_heap store refs map_id with
  | none => none
  | some (s2, ref) => some (s2.set ref (pipe (s2.getD ref default)), ref)

/-!
## Theorems
-/

section Helpers

variable {α : Type _}

theorem getD_set_self (l : List α) (n : Nat) (v d : α) (h : n < l.length) :
    (l.set n v).getD n d = v := by
  induction l generalizing n with
  | nil => simp at h
  | cons a as ih =>
    cases n with
    | zero => simp
    | succ m => simpa using ih m (by simpa using h)

theorem getD_set_ne (l : List α) (n m : Nat) (v d : α) (h : m ≠ n) :
    (l.set n v).getD m d = l.getD m d := by
  induction l generalizing n m with
  | nil => simp
  | cons a as ih =>
    cases n with
    | zero => cases m with
      | zero => exact absurd rfl h
      | succ k => simp
    | succ n2 => cases m with
      | zero => simp
      | succ k => simpa using ih n2 k (by omega)

theorem getD_append_left (l l2 : List α) (n : Nat) (d : α) (h : n < l.length) :
    (l ++ l2).getD n d = l.getD n d := by
  induction l generalizing n with
  | nil => simp at h
  | cons a as ih =>
    cases n with
    | zero => simp
    | succ m => simpa using ih m (by simp_all)

theorem getD_append_self (l : List α) (e d : α) :
    (l ++ [e]).getD l.length d = e := by
  induction l with
  | nil => simp
  | cons a as ih =>
    simp only [List.cons_append, List.length_cons, List.getD_cons_succ]
    exact ih

theorem pyListIndex_append_of_ne [DecidableEq α] (acc : List α) (x : α) (rest : List α)
    (h : ∀ a ∈ acc, a ≠ x) : pyListIndex (acc ++ x :: rest) x = acc.length := by
  induction acc with
  | nil => simp [pyListIndex]
  | cons a as ih =>
    have ha : a ≠ x := h a (by simp)
    simp only [List.cons_append, pyListIndex, if_neg ha, List.append_eq]
    rw [ih (fun b hb => h b (by simp [hb]))]
    simp

theorem pyListIndex_append_le [DecidableEq α] (acc : List α) (x : α) (rest : List α) :
    pyListIndex (acc ++ x :: rest) x ≤ acc.length := by
  induction acc with
  | nil => simp [pyListIndex]
  | cons a as ih =>
    by_cases ha : a = x
    · simp [pyListIndex, ha]
    · simp only [List.cons_append, pyListIndex, if_neg ha, List.append_eq, List.length_cons]
      omega

end Helpers

/-- C10: for every rule list and every slice read whose stop bound is 0,
`__getitem__` treats the stop bound like an absent one — `m[start:0]`
equals `m[start:]`, i.e. the whole tail from the (falsy-defaulted) start
bound, and in particular `m[0:0]` is the full rule list rather than the
empty list. -/
theorem getitem_slice_stop_zero_full_tail (mapping : List Rule) (start : Option Int) :
    getitem_slice mapping start (some 0) = getitem_slice mapping start none ∧
    getitem_slice mapping start (some 0) =
      mapping.drop (pyBoundIdx mapping.length (pyOrD start 0)) ∧
    getitem_slice mapping (some 0) (some 0) = mapping := by
  refine ⟨rfl, ?_, ?_⟩
  · show (mapping.drop _).take (pyBoundIdx mapping.length (pyOrD (some 0) (mapping.length : Int)) - _) = _
    have he : pyBoundIdx mapping.length (pyOrD (some 0) (mapping.length : Int)) = mapping.length := by
      simp [pyOrD, pyBoundIdx]
    rw [he]
    exact List.take_of_length_le (by simp)
  · show (mapping.drop (pyBoundIdx mapping.length (pyOrD (some 0) 0))).take _ = _
    have hs : pyBoundIdx mapping.length (pyOrD (some 0) 0) = 0 := by
      simp [pyOrD, pyBoundIdx]
    have he : pyBoundIdx mapping.length (pyOrD (some 0) (mapping.length : Int)) = mapping.length := by
      simp [pyOrD, pyBoundIdx]
    rw [hs, he]
    simp

/-- C8: with an existing output directory, `mapping_to_file` called with
a file type that is neither the structured-record format (`json`) nor
the delimited-text format (`csv`) fails with `IncorrectFileType`, and
the error result carries no written file. -/
theorem mapping_to_file_unsupported_type (il ol : Option String) (ft : String)
    (mapping : List Rule) (h1 : ft ≠ "json") (h2 : ft ≠ "csv") :
    mapping_to_file true il ol ft mapping = .error .IncorrectFileType := by
  simp [mapping_to_file, h1, h2]

/-- Witness for C8 at file type `"txt"`. -/
theorem mapping_to_file_unsupported_type_witness :
    ("txt" : String) ≠ "json" ∧ ("txt" : String) ≠ "csv" ∧
    mapping_to_file true none none "txt" [] = .error .IncorrectFileType :=
  ⟨by decide, by decide,
   mapping_to_file_unsupported_type none none "txt" [] (by decide) (by decide)⟩

theorem find_mapping_no_match (registry : List RegEntry) (il ol : String)
    (h : ∀ e ∈ registry, ¬(e.in_lang.getD "" = il ∧ e.out_lang.getD "" = ol)) :
    find_mapping registry il ol = .error (.MappingMissing il ol) := by
  induction registry with
  | nil => rfl
  | cons e es ih =>
    have he := h e (by simp)
    simp only [find_mapping, if_neg he]
    exact ih (fun x hx => h x (by simp [hx]))

theorem find_mapping_by_id_no_match (registry : List RegEntry) (mid : String)
    (h : ∀ e ∈ registry, e.id.getD "" ≠ mid) :
    find_mapping_by_id registry mid = none := by
  induction registry with
  | nil => rfl
  | cons e es ih =>
    have he := h e (by simp)
    simp only [find_mapping_by_id, if_neg he]
    exact ih (fun x hx => h x (by simp [hx]))

/-- C6: constructing a Mapping with no rule data, no configuration path,
no in_lang/out_lang pair and no id raises `MalformedLookup`; constructing
with an in_lang/out_lang pair matching no registry entry raises
`MappingMissing` carrying that pair. -/
theorem init_no_source_and_missing_pair (registry : List RegEntry) (il ol : String)
    (h : ∀ e ∈ registry, ¬(e.in_lang.getD "" = il ∧ e.out_lang.getD "" = ol)) :
    init_dispatch .noArg {} registry = .error .MalformedLookup ∧
    init_dispatch .noArg { in_lang := some il, out_lang := some ol } registry =
      .error (.MappingMissing il ol) := by
  constructor
  · rfl
  · simp only [init_dispatch, Option.isSome_some, Option.getD_some, and_self, if_true]
    rw [find_mapping_no_match registry il ol h]

/-- Witness for C6: the empty registry contains no matching pair. -/
theorem init_no_source_and_missing_pair_witness :
    init_dispatch .noArg {} ([] : List RegEntry) = .error .MalformedLookup ∧
    init_dispatch .noArg { in_lang := some "hun", out_lang := some "hun-ipa" } [] =
      .error (.MappingMissing "hun" "hun-ipa") :=
  init_no_source_and_missing_pair [] "hun" "hun-ipa" (by simp)

/-- C7: an id lookup that matches no registry entry returns an absent
result (the construction dispatch then proceeds with no usable
configuration) and raises no `MappingMissing`, while the language-pair
lookup with no match does raise `MappingMissing` — the two lookup paths
fail asymmetrically. -/
theorem id_lookup_absent_pair_lookup_raises (registry : List RegEntry) (mid il ol : String)
    (hid : ∀ e ∈ registry, e.id.getD "" ≠ mid)
    (hp : ∀ e ∈ registry, ¬(e.in_lang.getD "" = il ∧ e.out_lang.getD "" = ol)) :
    find_mapping_by_id registry mid = none ∧
    init_dispatch .noArg { id := some mid } registry = .ok (.fromConfig none) ∧
    find_mapping registry il ol = .error (.MappingMissing il ol) := by
  have h1 := find_mapping_by_id_no_match registry mid hid
  refine ⟨h1, ?_, find_mapping_no_match registry il ol hp⟩
  simp only [init_dispatch, Option.isSome_none, Option.isSome_some, Option.getD_some,
    Bool.false_eq_true, false_and, if_false, if_true, h1]

/-- Witness for C7 on a one-entry registry matching neither the id nor
the pair. -/
theorem id_lookup_absent_pair_lookup_raises_witness :
    find_mapping_by_id [{ in_lang := some "a", out_lang := some "b", id := some "panphon" }]
      "other" = none ∧
    init_dispatch .noArg { id := some "other" }
      [{ in_lang := some "a", out_lang := some "b", id := some "panphon" }] =
      .ok (.fromConfig none) ∧
    find_mapping [{ in_lang := some "a", out_lang := some "b", id := some "panphon" }]
      "x" "y" = .error (.MappingMissing "x" "y") :=
  id_lookup_absent_pair_lookup_raises
    [{ in_lang := some "a", out_lang := some "b", id := some "panphon" }]
    "other" "x" "y" (by decide) (by decide)

/-- C1 (code bug): the claim says compilation drops exactly the
empty-`in` records and leaves every other record compiled.  The loop at
`__init__.py` lines 191-194 removes elements from `mapping` while
iterating over it, so the record immediately after a dropped record is
skipped: in the first list below, the `{in: "a"}` rule survives but is
never given a `match_pattern`; in the second, the second empty-`in`
record survives undropped and uncompiled. -/
theorem regex_loop_skips_record_after_removal :
    process_kwargs_regex_loop true
        [{ inp := "", out := "c", context_before := "", context_after := "" },
         { inp := "a", out := "b", context_before := "", context_after := "" }] =
      [{ inp := "a", out := "b", context_before := "", context_after := "" }] ∧
    process_kwargs_regex_loop true
        [{ inp := "", out := "c", context_before := "", context_after := "" },
         { inp := "", out := "d", context_before := "", context_after := "" }] =
      [{ inp := "", out := "d", context_before := "", context_after := "" }] := by
  constructor <;> rfl

/-- C3 counterexample: a one-column row does not load with `out`
defaulted to the empty string — the unguarded `entry[1]` subscript
raises `IndexError`, so the claim fails for rows shorter than two
columns. -/
theorem load_from_csv_short_row_raises :
    load_from_csv [["a"]] = .error .indexError ∧
    load_from_csv [["a"]] ≠
      .ok [{ inp := "a", out := "", context_before := "", context_after := "" }] := by
  have h : load_from_csv [["a"]] = .error .indexError := rfl
  exact ⟨h, by rw [h]; simp⟩

/-- C3 (amended): for every row with at least two columns, columns 0-3
map positionally to in, out, context_before, context_after and the
missing trailing context columns default to the empty string; rows with
fewer than two columns instead abort the load with `IndexError`. -/
theorem load_from_csv_defaults_contexts (ws : List (List String))
    (h : ∀ row ∈ ws, 2 ≤ row.length) :
    load_from_csv ws = .ok (ws.map (fun row =>
      { inp := row.getD 0 "", out := row.getD 1 "",
        context_before := row.getD 2 "", context_after := row.getD 3 "" })) := by
  induction ws with
  | nil => rfl
  | cons row rest ih =>
    have hrow : load_row row = .ok
        { inp := row.getD 0 "", out := row.getD 1 "",
          context_before := row.getD 2 "", context_after := row.getD 3 "" } := by
      match row, h row (by simp) with
      | c0 :: c1 :: t, _ => simp [load_row, List.getD]
    simp only [load_from_csv, hrow, ih (fun r hr => h r (by simp [hr])), List.map_cons]

/-- Witness for C3's amended claim: the two-column row `["a","b"]` loads
with both context fields defaulted to the empty string. -/
theorem load_from_csv_defaults_contexts_witness :
    (∀ row ∈ [["a", "b"]], 2 ≤ row.length) ∧
    load_from_csv [["a", "b"]] =
      .ok [{ inp := "a", out := "b", context_before := "", context_after := "" }] :=
  ⟨by decide, load_from_csv_defaults_contexts [["a", "b"]] (by decide)⟩

/-- C5: for a mapping with no empty-`in` rules, exporting the rule table
to the delimited-text format writes one four-column row per rule in
order, and reloading those rows through `load_from_csv` reproduces the
same `in`, `out`, `context_before`, `context_after` values for every
rule, in the same order (the reloaded records are exactly the
four-public-field projections of the originals). -/
theorem csv_export_reload_round_trip (mapping : List Rule) (il ol : Option String)
    (h : ∀ r ∈ mapping, r.inp ≠ "") :
    mapping_to_file true il ol "csv" mapping =
      .ok (il.getD "und" ++ "_to_" ++ ol.getD "und" ++ "." ++ "csv",
           .csvFile (mapping.map mapping_rule_row)) ∧
    load_from_csv (mapping.map mapping_rule_row) = .ok (mapping.map plainRule) := by
  constructor
  · simp only [mapping_to_file, Bool.false_eq_true, reduceCtorEq, if_false, List.map_map,
      if_neg (by decide : ¬("csv" : String) = "json"), if_pos rfl, ite_false, ite_true]
    rfl
  · clear h
    induction mapping with
    | nil => rfl
    | cons r rs ih =>
      have hrow : load_row (mapping_rule_row r) = .ok (plainRule r) := rfl
      simp only [List.map_cons, load_from_csv, hrow, ih]

/-- Witness for C5 on a one-rule mapping with a non-empty input. -/
theorem csv_export_reload_round_trip_witness :
    (∀ r ∈ [{ inp := "a", out := "b", context_before := "c", context_after := "d" : Rule }],
      r.inp ≠ "") ∧
    mapping_to_file true (some "hun") (some "hun-ipa") "csv"
        [{ inp := "a", out := "b", context_before := "c", context_after := "d" }] =
      .ok ("hun_to_hun-ipa.csv", .csvFile [["a", "b", "c", "d"]]) ∧
    load_from_csv [["a", "b", "c", "d"]] =
      .ok [{ inp := "a", out := "b", context_before := "c", context_after := "d" }] :=
  ⟨by decide,
   csv_export_reload_round_trip
     [{ inp := "a", out := "b", context_before := "c", context_after := "d" }]
     (some "hun") (some "hun-ipa") (by decide)⟩

theorem preventFeedingGo_spec (rest : List Rule) : ∀ acc : List Rule,
    (∀ r ∈ acc, r.intermediate_form.isSome) →
    (∀ r ∈ rest, r.intermediate_form = none) →
    preventFeedingGo acc rest = acc ++ puaAssign acc.length rest := by
  induction rest with
  | nil => intro acc _ _; simp [preventFeedingGo, puaAssign]
  | cons io rest ih =>
    intro acc hacc hrest
    have hio : io.intermediate_form = none := hrest io (by simp)
    have hne : ∀ a ∈ acc, a ≠ io := by
      intro a ha heq
      have hs := hacc a ha
      rw [heq, hio] at hs
      simp at hs
    simp only [preventFeedingGo]
    rw [pyListIndex_append_of_ne acc io rest hne]
    rw [ih _ (by intro r hr
                 rcases List.mem_append.mp hr with h1 | h1
                 · exact hacc r h1
                 · simp at h1; rw [h1]; simp)
            (fun r hr => hrest r (by simp [hr]))]
    simp [puaAssign, List.append_assoc]

theorem puaAssign_getD (l : List Rule) : ∀ (base i : Nat), i < l.length →
    (puaAssign base l).getD i default =
      { l.getD i default with
        intermediate_form := some (string_to_pua (l.getD i default).out (base + i)) } := by
  induction l with
  | nil => intro base i h; simp at h
  | cons r rs ih =>
    intro base i h
    cases i with
    | zero => simp [puaAssign]
    | succ n =>
      simp only [puaAssign, List.getD_cons_succ]
      rw [ih (base + 1) n (by simpa using h)]
      have harith : base + 1 + n = base + (n + 1) := by omega
      rw [harith]

theorem char_toNat_ofNat_valid (n : Nat) (h : n.isValidChar) :
    (Char.ofNat n).toNat = n := by
  rw [Char.ofNat, dif_pos h]
  rfl

theorem string_to_pua_ne (s t : String) (i j : Nat) (hs : s ≠ "") (ht : t ≠ "")
    (hij : i ≠ j) (hi : i < 131072) (hj : j < 131072) :
    string_to_pua s i ≠ string_to_pua t j := by
  intro heq
  have hchar : Char.ofNat (983040 + i) = Char.ofNat (983040 + j) := by
    have hdata := congrArg String.data heq
    simp only [string_to_pua] at hdata
    have hslen : s.length ≠ 0 := by
      intro h0
      apply hs
      cases s with
      | mk data => cases data with
        | nil => rfl
        | cons c cs => simp [String.length] at h0
    cases hsl : s.length with
    | zero => exact absurd hsl hslen
    | succ m =>
      have htlen : t.length ≠ 0 := by
        intro h0
        rw [hsl, h0] at hdata
        simp at hdata
      cases htl : t.length with
      | zero => exact absurd htl htlen
      | succ k =>
        rw [hsl, htl] at hdata
        simp only [List.replicate_succ, List.cons.injEq] at hdata
        exact hdata.1
  have hvi : (983040 + i).isValidChar := Or.inr ⟨by omega, by omega⟩
  have hvj : (983040 + j).isValidChar := Or.inr ⟨by omega, by omega⟩
  have := congrArg Char.toNat hchar
  rw [char_toNat_ofNat_valid _ hvi, char_toNat_ofNat_valid _ hvj] at this
  omega

/-- C2 counterexample: two distinct rules whose `out` is empty receive
the same (empty) `intermediate_form`, so "distinct rules receive
distinct intermediate forms" fails as stated. -/
theorem prevent_feeding_empty_out_collision :
    ((preventFeeding
        [{ inp := "x", out := "", context_before := "", context_after := "" },
         { inp := "y", out := "", context_before := "", context_after := "" }]).getD 0
        default).intermediate_form = some "" ∧
    ((preventFeeding
        [{ inp := "x", out := "", context_before := "", context_after := "" },
         { inp := "y", out := "", context_before := "", context_after := "" }]).getD 1
        default).intermediate_form = some "" ∧
    ({ inp := "x", out := "", context_before := "", context_after := "" } : Rule) ≠
      { inp := "y", out := "", context_before := "", context_after := "" } := by
  refine ⟨rfl, rfl, by decide⟩

/-- C2 (amended): for rule lists whose records carry no pre-existing
`intermediate_form` (per the data model it is only added during
processing), the `prevent_feeding` stage sets the rule at position i's
`intermediate_form` to the character at code point 983040 + i repeated
len(out) times; rules at distinct positions receive distinct
intermediate forms provided both rules have a non-empty `out` (and the
list is short enough for the code points to be valid, as `chr` itself
requires). -/
theorem prevent_feeding_assigns_positional_pua (mapping : List Rule)
    (hnone : ∀ r ∈ mapping, r.intermediate_form = none)
    (hlen : mapping.length ≤ 131072) :
    preventFeeding mapping = puaAssign 0 mapping ∧
    ∀ i j, i < mapping.length → j < mapping.length → i ≠ j →
      (mapping.getD i default).out ≠ "" → (mapping.getD j default).out ≠ "" →
      ((preventFeeding mapping).getD i default).intermediate_form ≠
        ((preventFeeding mapping).getD j default).intermediate_form := by
  have hmain : preventFeeding mapping = puaAssign 0 mapping := by
    have := preventFeedingGo_spec mapping [] (by simp) hnone
    simpa [preventFeeding] using this
  refine ⟨hmain, ?_⟩
  intro i j hi hj hij houti houtj
  rw [hmain, puaAssign_getD mapping 0 i hi, puaAssign_getD mapping 0 j hj]
  simp only [Nat.zero_add, Option.some.injEq, ne_eq]
  intro heq
  exact string_to_pua_ne _ _ i j houti houtj hij (by omega) (by omega) heq

/-- Witness for C2's amended claim on a two-rule list with non-empty
outputs: the positional assignment holds and the two intermediate forms
differ. -/
theorem prevent_feeding_assigns_positional_pua_witness :
    (∀ r ∈ [{ inp := "a", out := "b", context_before := "", context_after := "" },
            { inp := "c", out := "d", context_before := "", context_after := "" : Rule }],
       r.intermediate_form = none) ∧
    ([{ inp := "a", out := "b", context_before := "", context_after := "" },
      { inp := "c", out := "d", context_before := "", context_after := "" : Rule }].length ≤ 131072) ∧
    preventFeeding
        [{ inp := "a", out := "b", context_before := "", context_after := "" },
         { inp := "c", out := "d", context_before := "", context_after := "" }] =
      puaAssign 0
        [{ inp := "a", out := "b", context_before := "", context_after := "" },
         { inp := "c", out := "d", context_before := "", context_after := "" }] ∧
    ((preventFeeding
        [{ inp := "a", out := "b", context_before := "", context_after := "" },
         { inp := "c", out := "d", context_before := "", context_after := "" }]).getD 0
        default).intermediate_form ≠
      ((preventFeeding
        [{ inp := "a", out := "b", context_before := "", context_after := "" },
         { inp := "c", out := "d", context_before := "", context_after := "" }]).getD 1
        default).intermediate_form := by
  have T := prevent_feeding_assigns_positional_pua
    [{ inp := "a", out := "b", context_before := "", context_after := "" },
     { inp := "c", out := "d", context_before := "", context_after := "" }]
    (by decide) (by decide)
  exact ⟨by decide, by decide, T.1,
    T.2 0 1 (by decide) (by decide) (by decide) (by decide) (by decide)⟩

theorem lbGo_eq_chunk (p : List String)
    (hlast : pyListIndex p (p.getLastD "") = p.length - 1) :
    ∀ (rest pre : List String) (curLen : Nat) (all : List (List String)) (cur : List String),
      p = pre ++ rest → rest ≠ [] →
      lbGo p rest curLen all cur = all ++ chunkByLenAux cur curLen rest := by
  intro rest
  induction rest with
  | nil => intro pre curLen all cur hp hne; exact absurd rfl hne
  | cons item rest ih =>
    intro pre curLen all cur hp _
    cases rest with
    | nil =>
      have hlastd : p.getLastD "" = item := by rw [hp]; exact List.getLastD_concat _ _ _
      have hidx : pyListIndex p item = p.length - 1 := by rw [← hlastd]; exact hlast
      by_cases hl : item.length = curLen
      · rw [lbGo]
        simp only [if_pos hl, if_pos hidx]
        simp [lbGo, chunkByLenAux, hl]
      · rw [lbGo]
        simp only [if_neg hl, if_pos hidx]
        simp [lbGo, chunkByLenAux, hl]
    | cons item2 rest2 =>
      have hle : pyListIndex p item ≤ pre.length := by
        rw [hp]; exact pyListIndex_append_le pre item (item2 :: rest2)
      have hlen2 : pre.length + 2 ≤ p.length := by
        rw [hp]; simp only [List.length_append, List.length_cons]; omega
      have hflush : ¬(pyListIndex p item = p.length - 1) := by omega
      by_cases hl : item.length = curLen
      · rw [lbGo]
        simp only [if_pos hl, if_neg hflush]
        rw [ih (pre ++ [item]) curLen all (cur ++ [item]) (by rw [hp]; simp) (by simp)]
        simp [chunkByLenAux, hl]
      · rw [lbGo]
        simp only [if_neg hl, if_neg hflush]
        rw [ih (pre ++ [item]) item.length (all ++ [cur]) [item] (by rw [hp]; simp) (by simp)]
        simp [chunkByLenAux, hl]

/-- C4 counterexample: the run `a|b|a` (all alternatives of equal
length) should render one bucket `((?<=a|b|a))` by the claimed
algorithm, but because the final-iteration test uses the alternative's
first-occurrence index, the duplicated last sorted alternative never
triggers the bucket flush and the rewriter emits the empty group `()`. -/
theorem lookbehind_duplicate_last_drops_bucket :
    create_fixed_width_lookbehind "a|b|a" = "()" ∧
    lookbehind_spec "a|b|a" = "((?<=a|b|a))" := by
  constructor <;> rfl

/-- C4 (amended): for every maximal run of letters, combining marks and
separators, `pattern_to_fixed_width_lookbehinds` splits on the
separator, stably sorts by descending length, groups consecutive
post-sort alternatives of equal length into descending buckets, renders
each bucket as one lookbehind joined by the separator and wraps the
joined buckets in one outer group — provided the last post-sort
alternative does not duplicate an earlier alternative; when it does, the
final bucket is dropped from the output (see the counterexample). -/
theorem lookbehind_rewrite_matches_spec (s : String)
    (hlast : pyListIndex (sortByLenDesc (pySplitPipe s))
        ((sortByLenDesc (pySplitPipe s)).getLastD "") =
      (sortByLenDesc (pySplitPipe s)).length - 1) :
    pattern_to_fixed_width_lookbehinds s = lookbehind_spec s := by
  unfold pattern_to_fixed_width_lookbehinds lookbehind_spec
  cases hp : sortByLenDesc (pySplitPipe s) with
  | nil => simp [lbGo, chunkByLen]
  | cons hd t =>
    rw [hp] at hlast
    simp only [List.headD_cons]
    rw [lbGo_eq_chunk (hd :: t) hlast (hd :: t) [] hd.length [] [] rfl (by simp)]
    simp [chunkByLen, chunkByLenAux]

/-- Witness for C4's amended claim at the run `xy|a|b` (alternative
lengths {2,1,1}, no duplicated last alternative): two buckets, rendered
longest-first, exactly as the claim's example demands. -/
theorem lookbehind_rewrite_matches_spec_witness :
    pyListIndex (sortByLenDesc (pySplitPipe "xy|a|b"))
        ((sortByLenDesc (pySplitPipe "xy|a|b")).getLastD "") =
      (sortByLenDesc (pySplitPipe "xy|a|b")).length - 1 ∧
    pattern_to_fixed_width_lookbehinds "xy|a|b" = lookbehind_spec "xy|a|b" ∧
    pattern_to_fixed_width_lookbehinds "xy|a|b" = "((?<=xy)|(?<=a|b))" :=
  ⟨by rfl, lookbehind_rewrite_matches_spec "xy|a|b" (by rfl), by rfl⟩

theorem find_mapping_heap_ok (store : List RegEntry) (il ol : String) :
    ∀ (refs : List Nat) (s2 : List RegEntry) (ref : Nat),
      find_mapping_heap store refs il ol = .ok (s2, ref) →
      ∃ e, s2 = store ++ [e] ∧ ref = store.length ∧
        find_mapping (derefAll store refs) il ol = .ok e := by
  intro refs
  induction refs with
  | nil => intro s2 ref h; simp [find_mapping_heap] at h
  | cons r rs ih =>
    intro s2 ref h
    by_cases hc : ((store.getD r default).in_lang.getD "" = il ∧
        (store.getD r default).out_lang.getD "" = ol)
    · simp only [find_mapping_heap, if_pos hc, Except.ok.injEq, Prod.mk.injEq] at h
      exact ⟨store.getD r default, h.1.symm, h.2.symm,
        by simp only [derefAll, List.map_cons, find_mapping, if_pos hc]⟩
    · simp only [find_mapping_heap, if_neg hc] at h
      obtain ⟨e, h1, h2, h3⟩ := ih s2 ref h
      exact ⟨e, h1, h2, by simp only [derefAll, List.map_cons, find_mapping, if_neg hc]; exact h3⟩

theorem find_mapping_by_id_heap_some (store : List RegEntry) (mid : String) :
    ∀ (refs : List Nat) (s2 : List RegEntry) (ref : Nat),
      find_mapping_by_id_heap store refs mid = some (s2, ref) →
      ∃ e, s2 = store ++ [e] ∧ ref = store.length ∧
        find_mapping_by_id (derefAll store refs) mid = some e := by
  intro refs
  induction refs with
  | nil => intro s2 ref h; simp [find_mapping_by_id_heap] at h
  | cons r rs ih =>
    intro s2 ref h
    by_cases hc : (store.getD r default).id.getD "" = mid
    · simp only [find_mapping_by_id_heap, if_pos hc, Option.some.injEq, Prod.mk.injEq] at h
      exact ⟨store.getD r default, h.1.symm, h.2.symm,
        by simp only [derefAll, List.map_cons, find_mapping_by_id, if_pos hc]⟩
    · simp only [find_mapping_by_id_heap, if_neg hc] at h
      obtain ⟨e, h1, h2, h3⟩ := ih s2 ref h
      exact ⟨e, h1, h2, by
        simp only [derefAll, List.map_cons, find_mapping_by_id, if_neg hc]; exact h3⟩

/-- C9: a registry lookup (by language pair or by id) that finds a match
operates on a deep copy of the first matching entry — construction runs
its whole processing pipeline (an arbitrary `pipe`) on the fresh cell —
and the catalog's own cells are left untouched by construction. -/
theorem registry_lookup_deepcopy_frame (store : List RegEntry) (refs : List Nat)
    (il ol mid : String) (pipe : RegEntry → RegEntry)
    (hv : ∀ r ∈ refs, r < store.length) :
    (∀ s2 ref, construct_from_pair store refs il ol pipe = .ok (s2, ref) →
      (∀ r ∈ refs, s2.getD r default = store.getD r default) ∧
      ∃ e, find_mapping (derefAll store refs) il ol = .ok e ∧
        s2.getD ref default = pipe e) ∧
    (∀ s2 ref, construct_from_id store refs mid pipe = some (s2, ref) →
      (∀ r ∈ refs, s2.getD r default = store.getD r default) ∧
      ∃ e, find_mapping_by_id (derefAll store refs) mid = some e ∧
        s2.getD ref default = pipe e) := by
  constructor
  · intro s2 ref h
    unfold construct_from_pair at h
    cases hfind : find_mapping_heap store refs il ol with
    | error e => rw [hfind] at h; exact absurd h (by simp)
    | ok pr =>
      obtain ⟨s1, ref1⟩ := pr
      rw [hfind] at h
      simp only [Except.ok.injEq, Prod.mk.injEq] at h
      obtain ⟨hs2, href⟩ := h
      obtain ⟨e, he1, he2, he3⟩ := find_mapping_heap_ok store il ol refs s1 ref1 hfind
      subst he1 he2 hs2 href
      have hcell : (store ++ [e]).getD store.length default = e := getD_append_self store e default
      constructor
      · intro r hr
        have hrlt : r < store.length := hv r hr
        rw [getD_set_ne _ _ _ _ _ (by omega), getD_append_left _ _ _ _ hrlt]
      · refine ⟨e, he3, ?_⟩
        rw [hcell]
        exact getD_set_self _ _ _ _ (by simp)
  · intro s2 ref h
    unfold construct_from_id at h
    cases hfind : find_mapping_by_id_heap store refs mid with
    | none => rw [hfind] at h; exact absurd h (by simp)
    | some pr =>
      obtain ⟨s1, ref1⟩ := pr
      rw [hfind] at h
      simp only [Option.some.injEq, Prod.mk.injEq] at h
      obtain ⟨hs2, href⟩ := h
      obtain ⟨e, he1, he2, he3⟩ := find_mapping_by_id_heap_some store mid refs s1 ref1 hfind
      subst he1 he2 hs2 href
      have hcell : (store ++ [e]).getD store.length default = e := getD_append_self store e default
      constructor
      · intro r hr
        have hrlt : r < store.length := hv r hr
        rw [getD_set_ne _ _ _ _ _ (by omega), getD_append_left _ _ _ _ hrlt]
      · refine ⟨e, he3, ?_⟩
        rw [hcell]
        exact getD_set_self _ _ _ _ (by simp)

/-- Witness for C9 on a one-entry store referenced by the registry, with
the identity pipeline. -/
theorem registry_lookup_deepcopy_frame_witness :
    (∀ r ∈ [0], r <
      ([{ in_lang := some "x", out_lang := some "y", id := some "i" }] :
        List RegEntry).length) ∧
    ((∀ s2 ref, construct_from_pair
        [{ in_lang := some "x", out_lang := some "y", id := some "i" }] [0] "x" "y"
        (fun e => e) = .ok (s2, ref) →
      (∀ r ∈ [0], s2.getD r default =
        ([{ in_lang := some "x", out_lang := some "y", id := some "i" }] :
          List RegEntry).getD r default) ∧
      ∃ e, find_mapping
          (derefAll [{ in_lang := some "x", out_lang := some "y", id := some "i" }] [0])
          "x" "y" = .ok e ∧ s2.getD ref default = e) ∧
    (∀ s2 ref, construct_from_id
        [{ in_lang := some "x", out_lang := some "y", id := some "i" }] [0] "i"
        (fun e => e) = some (s2, ref) →
      (∀ r ∈ [0], s2.getD r default =
        ([{ in_lang := some "x", out_lang := some "y", id := some "i" }] :
          List RegEntry).getD r default) ∧
      ∃ e, find_mapping_by_id
          (derefAll [{ in_lang := some "x", out_lang := some "y", id := some "i" }] [0])
          "i" = some e ∧ s2.getD ref default = e)) :=
  ⟨by decide, registry_lookup_deepcopy_frame
    [{ in_lang := some "x", out_lang := some "y", id := some "i" }] [0] "x" "y" "i"
    (fun e => e) (by decide)⟩
